import Mathlib

/-!
# Verification of the PyLoxone audio-server handshake module

Shallow embedding of `custom_components/loxone/pyloxone_api/audioserver.py`.

Python strings are modelled as `List Char`, byte strings as `List Nat`
(each entry a byte value).  The crypto library calls (`RSA`/`AES` from
PyCryptodome) and `json.loads` are external collaborators: they are
passed in as explicit function parameters, while everything the module
itself computes (hex rendering, UTF-8 encoding, base64, PKCS#7 padding,
percent-encoding, string normalisation, and the message loop of
`authenticate_with_audio_server`) is translated directly from the source.

Randomness (`get_random_bytes(16)`) is made explicit: each invocation of
the encryptor receives its two 16-byte draws from an `rng` parameter
indexed by the invocation counter, so that "fresh material per call" is
visible in the model.
-/

/-- The whitespace class of Python's `str.strip` restricted to the ASCII
range (space, tab, newline, carriage return, vertical tab, form feed);
every string in this development is ASCII, where the two notions agree. -/
def isPySpace (c : Char) : Bool :=
  c = ' ' || c = '\t' || c = '\n' || c = '\r' || c = '\x0b' || c = '\x0c'

/-- Python `str.strip()`: remove leading and trailing whitespace. -/
def pyStrip (s : List Char) : List Char :=
  List.rdropWhile isPySpace (List.dropWhile isPySpace s)

/-- Python `pat in s` (substring containment) for a nonempty pattern;
for `pat = []` this returns `true` on every string, like Python. -/
def containsSub (pat : List Char) : List Char → Bool
  | [] => pat.isPrefixOf []
  | c :: rest => pat.isPrefixOf (c :: rest) || containsSub pat rest

/-- The text of `s` strictly before the first occurrence of `pat`
(`s` itself when `pat` does not occur). -/
def upToFirst (pat : List Char) : List Char → List Char
  | [] => []
  | c :: rest => if pat.isPrefixOf (c :: rest) then [] else c :: upToFirst pat rest

/-- The text of `s` strictly after the first occurrence of `pat`
(`[]` when `pat` does not occur). -/
def afterFirst (pat : List Char) : List Char → List Char
  | [] => []
  | c :: rest =>
    if pat.isPrefixOf (c :: rest) then (c :: rest).drop pat.length
    else afterFirst pat rest

/-- Fuel-driven worker for `pySplit`; the fuel only serves to make the
recursion structural, `s.length + 1` is always enough (each round consumes
at least one character of `s`). -/
def pySplitAux : Nat → List Char → List Char → List (List Char)
  | 0, _, s => [s]
  | n + 1, pat, s =>
    if pat ≠ [] ∧ containsSub pat s then
      upToFirst pat s :: pySplitAux n pat (afterFirst pat s)
    else [s]

/-- Python `s.split(pat)` for a nonempty separator `pat` (Python raises
`ValueError` on an empty separator; the module only splits on the literal
`"Session-Token:"`). -/
def pySplit (pat s : List Char) : List (List Char) :=
  pySplitAux (s.length + 1) pat s

/-- Fuel-driven worker for `listReplace`; `s.length` fuel is always
enough because every round consumes at least one character of `s`. -/
def listReplaceAux : Nat → List Char → List Char → List Char → List Char
  | 0, s, _, _ => s
  | _ + 1, [], _, _ => []
  | n + 1, c :: rest, pat, rep =>
    if pat.isPrefixOf (c :: rest) then
      rep ++ listReplaceAux n ((c :: rest).drop pat.length) pat rep
    else c :: listReplaceAux n rest pat rep

/-- Python `s.replace(pat, rep)` for a nonempty pattern: replace all
non-overlapping occurrences, scanning left to right (the module only
replaces the fixed PEM header and footer markers, which are nonempty). -/
def listReplace (s pat rep : List Char) : List Char :=
  listReplaceAux s.length s pat rep

/-- `"-----BEGIN PUBLIC KEY-----"` (source line 20). -/
def pemHeader : List Char := ("-----BEGIN PUBLIC KEY-----").data

/-- `"-----END PUBLIC KEY-----"` (source line 21). -/
def pemFooter : List Char := ("-----END PUBLIC KEY-----").data

/-- `normalize_public_key` (source lines 14-23):
`public_key.replace(header, header + "\n").replace(footer, "\n" + footer).strip()`. -/
def normalize_public_key (public_key : List Char) : List Char :=
  pyStrip
    (listReplace
      (listReplace public_key pemHeader (pemHeader ++ ['\n']))
      pemFooter ('\n' :: pemFooter))

/-! ## Hex, UTF-8, base64, PKCS#7 and percent-encoding helpers -/

/-- Lowercase hex digit table (Python `bytes.hex()` renders lowercase). -/
def hexDigits : List Char := ("0123456789abcdef").data

/-- Uppercase hex digit table (`urllib.parse.quote` escapes with uppercase hex). -/
def hexDigitsU : List Char := ("0123456789ABCDEF").data

/-- Two lowercase hex characters for one byte. -/
def hexOfByte (b : Nat) : List Char :=
  [hexDigits.getD (b / 16) 'x', hexDigits.getD (b % 16) 'x']

/-- Python `bytes.hex()`: lowercase hex rendering of a byte string. -/
def bytesHex (bs : List Nat) : List Char := bs.bind hexOfByte

/-- UTF-8 encoding of one character (standard 1-4 byte ranges). -/
def utf8EncodeChar (c : Char) : List Nat :=
  let n := c.toNat
  if n < 128 then [n]
  else if n < 2048 then [192 + n / 64, 128 + n % 64]
  else if n < 65536 then [224 + n / 4096, 128 + (n / 64) % 64, 128 + n % 64]
  else [240 + n / 262144, 128 + (n / 4096) % 64, 128 + (n / 64) % 64, 128 + n % 64]

/-- Python `str.encode("utf-8")`. -/
def utf8Encode (s : List Char) : List Nat := s.bind utf8EncodeChar

/-- The base64 alphabet. -/
def b64Table : List Char :=
  ("ABCDEFGHIJKLMNOPQRSTUVWXYZabcdefghijklmnopqrstuvwxyz0123456789+/").data

/-- Character for one 6-bit group. -/
def b64Char (n : Nat) : Char := b64Table.getD n 'A'

/-- `base64.b64encode` on a byte string (result read back as ASCII text,
mirroring `b64encode(..).decode("ascii")` in the source). -/
def b64encode : List Nat → List Char
  | b1 :: b2 :: b3 :: rest =>
    b64Char (b1 / 4) :: b64Char (b1 % 4 * 16 + b2 / 16) ::
      b64Char (b2 % 16 * 4 + b3 / 64) :: b64Char (b3 % 64) :: b64encode rest
  | [b1, b2] => [b64Char (b1 / 4), b64Char (b1 % 4 * 16 + b2 / 16), b64Char (b2 % 16 * 4), '=']
  | [b1] => [b64Char (b1 / 4), b64Char (b1 % 4 * 16), '=', '=']
  | [] => []

/-- `Crypto.Util.Padding.pad(data, AES.block_size)`: PKCS#7 padding to the
16-byte AES block size. -/
def pkcs7pad (bs : List Nat) : List Nat :=
  bs ++ List.replicate (16 - bs.length % 16) (16 - bs.length % 16)

/-- The unreserved characters of `urllib.parse.quote`
(letters, digits, `_`, `.`, `-`, `~`); everything else is escaped because
the source passes `safe=""`. -/
def isUnreservedChar (c : Char) : Bool :=
  c.isAlphanum || c = '_' || c = '.' || c = '-' || c = '~'

/-- Percent-encoding of one character: an unreserved ASCII character is kept,
any other character has each of its UTF-8 bytes escaped as `%XX`. -/
def quoteChar (c : Char) : List Char :=
  if isUnreservedChar c then [c]
  else (utf8EncodeChar c).bind
    (fun b => '%' :: [hexDigitsU.getD (b / 16) 'x', hexDigitsU.getD (b % 16) 'x'])

/-- Python `urllib.parse.quote(s, safe="")`. -/
def pyQuote (s : List Char) : List Char := s.bind quoteChar

/-! ## The hybrid credential encryptor (`get_auth_payload`, source lines 25-56)

The two calls to `get_random_bytes(16)` are made explicit as the byte-string
parameters `seed1` and `seed2`; the RSA and AES library primitives are
abstract function parameters (`CryptoPrims`). -/

/-- `aes_key_bytes = get_random_bytes(16).hex().encode("utf-8")`
(source line 39): the symmetric key is the ASCII byte string of the
lowercase hex rendering of the 16 random bytes. -/
def aes_key_bytes (seed1 : List Nat) : List Nat := utf8Encode (bytesHex seed1)

/-- `rsa_payload = f"{aes_key_bytes.hex()}:{iv.hex()}:{session_token}".encode("utf-8")`
(source line 42).  Note: `aes_key_bytes` is itself already the hex string of
the seed, so `aes_key_bytes.hex()` hex-encodes those 32 ASCII bytes again. -/
def rsa_payload (seed1 seed2 : List Nat) (session_token : List Char) : List Nat :=
  utf8Encode (bytesHex (aes_key_bytes seed1) ++ ':' :: (bytesHex seed2 ++ ':' :: session_token))

/-- Formalisation of the claim wording for the RSA plaintext (claim C1 /
spec 4.2 step 3): first segment the lowercase hex rendering of the 16 raw
random bytes themselves (32 hex characters, the symmetric key read as
text), second segment the hex of the raw IV bytes, then the session
token.  Kept separate so it can be compared with `rsa_payload`, which is
translated from the source. -/
def rsa_payload_claimed (seed1 seed2 : List Nat) (session_token : List Char) : List Nat :=
  utf8Encode (bytesHex seed1 ++ ':' :: (bytesHex seed2 ++ ':' :: session_token))

/-- `iv = get_random_bytes(16)` (source line 40): the IV is the second
16-byte draw used raw, not hex-rendered. -/
def iv_bytes (seed2 : List Nat) : List Nat := seed2

/-- The library encryption primitives used by `get_auth_payload`, modelled
as abstract total functions: `rsaEncrypt` takes the normalised PEM key and
the plaintext bytes, `aesEncryptCBC` takes key, IV and padded plaintext. -/
structure CryptoPrims where
  rsaEncrypt : List Char → List Nat → List Nat
  aesEncryptCBC : List Nat → List Nat → List Nat → List Nat

/-- `"secure/authenticate/"`, the fixed stem of the authenticate command. -/
def secureAuthStem : List Char := ("secure/authenticate/").data

/-- `get_auth_payload` (source lines 25-56): normalise the key, RSA-encrypt
the session payload, AES-CBC-encrypt the padded token, base64 both, then
compose `secure/authenticate/<user>/<rsa>/<aes>` with every segment
percent-encoded via `quote(..., safe="")`. -/
def get_auth_payload (prims : CryptoPrims) (seed1 seed2 : List Nat)
    (public_key session_token token active_user : List Char) : List Char :=
  let pem_public_key := normalize_public_key public_key
  let rsa_encrypted :=
    b64encode (prims.rsaEncrypt pem_public_key (rsa_payload seed1 seed2 session_token))
  let ciphertext_b64 :=
    b64encode (prims.aesEncryptCBC (aes_key_bytes seed1) (iv_bytes seed2)
      (pkcs7pad (utf8Encode token)))
  secureAuthStem ++ pyQuote active_user ++ '/' ::
    (pyQuote rsa_encrypted ++ '/' :: pyQuote ciphertext_b64)

/-! ## Parsed JSON values and the handshake loop
(`authenticate_with_audio_server`, source lines 58-101)

`json.loads` is an external collaborator; it is modelled as an abstract
parameter `loads : List Char → Option PyValue` returning the parsed value,
or `none` when the library would raise `json.JSONDecodeError`. -/

/-- A Python value as produced by `json.loads`. -/
inductive PyValue where
  | pystr (s : List Char)
  | pyint (n : Int)
  | pybool (b : Bool)
  | pynull
  | pylist (xs : List PyValue)
  | pydict (entries : List (List Char × PyValue))

/-- Python truthiness of a JSON-derived value. -/
def pyTruthy : PyValue → Bool
  | .pystr s => !s.isEmpty
  | .pyint n => n != 0
  | .pybool b => b
  | .pynull => false
  | .pylist xs => !xs.isEmpty
  | .pydict es => !es.isEmpty

/-- Truthiness of the result of `dict.get` (absent key gives `None`, falsy). -/
def optTruthy : Option PyValue → Bool
  | none => false
  | some v => pyTruthy v

/-- `json_message.get(key)`: keys coming out of `json.loads` are unique,
so first-match lookup is exact. -/
def dictGet (entries : List (List Char × PyValue)) (k : List Char) : Option PyValue :=
  (entries.find? (fun e => e.1 == k)).map (fun e => e.2)

/-- Python `==` between a JSON-derived value and a string literal
(`False` whenever the value is not a string). -/
def pyEqStrLit (v : PyValue) (s : List Char) : Bool :=
  match v with
  | .pystr t => t == s
  | _ => false

/-- Is the top-level parsed value a dict (`isinstance(json_message, dict)`)? -/
def isDictV : PyValue → Bool
  | .pydict _ => true
  | _ => false

/-- Decimal digits of a natural number (fuel-driven to keep the recursion
structural; `n + 1` fuel is always enough). -/
def natDecimalAux : Nat → Nat → List Char
  | 0, _ => []
  | fuel + 1, n =>
    if n < 10 then [hexDigits.getD n 'x']
    else natDecimalAux fuel (n / 10) ++ [hexDigits.getD (n % 10) 'x']

/-- Decimal rendering of a natural number. -/
def natDecimal (n : Nat) : List Char := natDecimalAux (n + 1) n

/-- Python decimal rendering of an integer. -/
def intDecimal : Int → List Char
  | .ofNat n => natDecimal n
  | .negSucc n => '-' :: natDecimal (n + 1)

/-- The single-quote character, used by Python `repr` of strings. -/
def squote : Char := Char.ofNat 39

/-- Join with `", "`, as Python renders list/dict elements. -/
def joinCommaSep (xs : List (List Char)) : List Char :=
  (List.intersperse [',', ' '] xs).join

mutual
/-- Python `repr` of a JSON-derived value, as interpolated into the error
f-string for nested values.  String escaping is omitted: every string this
is applied to in the module is plain text without quotes or backslashes. -/
def pyRepr : PyValue → List Char
  | .pystr s => squote :: (s ++ [squote])
  | .pyint n => intDecimal n
  | .pybool b => if b then ("True").data else ("False").data
  | .pynull => ("None").data
  | .pylist xs => '[' :: (joinCommaSep (pyReprElems xs) ++ [']'])
  | .pydict es => Char.ofNat 123 :: (joinCommaSep (pyReprEntries es) ++ [Char.ofNat 125])

/-- `repr` of the elements of a list value. -/
def pyReprElems : List PyValue → List (List Char)
  | [] => []
  | v :: vs => pyRepr v :: pyReprElems vs

/-- `repr` of the entries of a dict value. -/
def pyReprEntries : List (List Char × PyValue) → List (List Char)
  | [] => []
  | (k, v) :: es => (squote :: (k ++ (squote :: ':' :: ' ' :: pyRepr v))) :: pyReprEntries es
end

/-- Python `str()` of a JSON-derived value, as used by the f-string
`f"Audio server error: {auth_result or 'unknown error'}"`. -/
def pyStr (v : PyValue) : List Char :=
  match v with
  | .pystr s => s
  | _ => pyRepr v

/-! ### Wire-protocol string constants (source lines 59, 66-69, 76-99) -/

/-- `"LWSS"`, the greeting recognizer. -/
def lwssMarker : List Char := ("LWSS").data

/-- `"Session-Token:"`. -/
def sessionTokenMarker : List Char := ("Session-Token:").data

/-- `"audio/cfg/getkey/full"`, the outbound key request. -/
def getkeyCmd : List Char := ("audio/cfg/getkey/full").data

/-- `"getkey_result"`. -/
def gkKey : List Char := ("getkey_result").data

/-- `"authenticate_result"`. -/
def authKey : List Char := ("authenticate_result").data

/-- `"pubkey"`. -/
def pubkeyKey : List Char := ("pubkey").data

/-- `"authentication successful"`. -/
def successStr : List Char := ("authentication successful").data

/-- `"No session token captured; cannot authenticate."` (source line 79). -/
def noSessionMsg : List Char := ("No session token captured; cannot authenticate.").data

/-- `"Audio server error: "`, the stem of the generic failure message. -/
def audioServerErr : List Char := ("Audio server error: ").data

/-- `"unknown error"`. -/
def unknownErr : List Char := ("unknown error").data

/-- The mutable context of one run of `authenticate_with_audio_server`:
the captured `session_token`, the commands sent on the connection so far
(in order), and how many times the encryptor `get_auth_payload` has been
invoked. -/
structure LoopState where
  session_token : Option (List Char)
  sent : List (List Char)
  encCalls : Nat
deriving DecidableEq

/-- How one run of `authenticate_with_audio_server` finishes. -/
inductive Outcome where
  /-- `return True` (source line 95). -/
  | success
  /-- `raise Exception(msg)` (source lines 81 and 101). -/
  | failure (msg : List Char)
  /-- `json.loads` raised on a message that is not valid JSON (line 74). -/
  | jsonError
  /-- an uncaught `TypeError`/`AttributeError`: a truthy `getkey_result`
  that is not a non-empty list of dicts with a string `pubkey` makes the
  subscript/attribute accesses on lines 84 and 23 raise. -/
  | runtimeError
  /-- the `async for` loop ran out of messages and the function returned
  `None` implicitly (fall through line 101). -/
  | ended
deriving DecidableEq

/-- One iteration of the `async for message in connection` body
(source lines 64-101).  Returns the updated state and `some o` when the
iteration terminates the run with outcome `o`, or `none` when it falls
through to the next message (`continue`, or the silent skip of a non-dict
JSON value). -/
def authStep (loads : List Char → Option PyValue) (prims : CryptoPrims)
    (rng : Nat → List Nat × List Nat) (token active_user : List Char)
    (st : LoopState) (message : List Char) : LoopState × Option Outcome :=
  if lwssMarker.isPrefixOf message then
    -- lines 66-72: capture the token if the marker is present, send getkey
    let tokVal := some (pyStrip ((pySplit sessionTokenMarker message).getD 1 []))
    let st1 :=
      if containsSub sessionTokenMarker message then { st with session_token := tokVal }
      else st
    ({ st1 with sent := st1.sent ++ [getkeyCmd] }, none)
  else
    match loads message with
    | none => (st, some .jsonError)
    | some v =>
      match v with
      | .pydict d =>
        if optTruthy (dictGet d gkKey) then
          -- lines 76-90
          match st.session_token with
          | none => (st, some (.failure noSessionMsg))
          | some tok =>
            if tok.isEmpty then (st, some (.failure noSessionMsg))
            else
              match dictGet d gkKey with
              | some (.pylist (.pydict fd :: _)) =>
                match dictGet fd pubkeyKey with
                | some (.pystr pk) =>
                  let seeds := rng st.encCalls
                  ({ st with
                      sent := st.sent ++
                        [get_auth_payload prims seeds.1 seeds.2 pk tok token active_user],
                      encCalls := st.encCalls + 1 }, none)
                | _ => (st, some .runtimeError)
              | _ => (st, some .runtimeError)
        else
          -- lines 91-101
          match dictGet d authKey with
          | some ar =>
            if pyTruthy ar then
              if pyEqStrLit ar successStr then (st, some .success)
              else (st, some (.failure (audioServerErr ++ pyStr ar)))
            else (st, some (.failure (audioServerErr ++ unknownErr)))
          | none => (st, some (.failure (audioServerErr ++ unknownErr)))
      | _ => (st, none)   -- not a dict: the loop body ends, silently skipping

/-- The `async for` loop of `authenticate_with_audio_server`: process the
inbound messages in order until an iteration terminates the run; when the
stream is exhausted first, the function falls off the loop and implicitly
returns `None` (`Outcome.ended`). -/
def authRun (loads : List Char → Option PyValue) (prims : CryptoPrims)
    (rng : Nat → List Nat × List Nat) (token active_user : List Char) :
    LoopState → List (List Char) → Outcome × LoopState
  | st, [] => (.ended, st)
  | st, m :: rest =>
    match authStep loads prims rng token active_user st m with
    | (st', none) => authRun loads prims rng token active_user st' rest
    | (st', some o) => (o, st')

/-- The state at entry of `authenticate_with_audio_server`
(source lines 62-63): no session token captured, nothing sent, the
encryptor never invoked. -/
def initialState : LoopState := ⟨none, [], 0⟩

/-- `authenticate_with_audio_server` (source lines 61-101) over an explicit
list of inbound messages. -/
def authenticate_with_audio_server (loads : List Char → Option PyValue)
    (prims : CryptoPrims) (rng : Nat → List Nat × List Nat)
    (msgs : List (List Char)) (token active_user : List Char) : Outcome × LoopState :=
  authRun loads prims rng token active_user initialState msgs

/-! ## Concrete fixtures used by witnesses and counterexamples

The primitives below stand in for successful library calls on well-formed
inputs: `trivPrims` returns empty ciphertexts, `trivRng` returns all-zero
draws, and the `loads` functions give the JSON parses of the fixed
messages used in the concrete runs. -/

/-- All-zero 16-byte draw. -/
def z16 : List Nat := List.replicate 16 0

/-- Trivial encryption primitives (empty ciphertexts). -/
def trivPrims : CryptoPrims := ⟨fun _ _ => [], fun _ _ _ => []⟩

/-- Trivial randomness: every draw is all-zero. -/
def trivRng : Nat → List Nat × List Nat := fun _ => (z16, z16)

/-- A well-formed-looking PEM public key fixture. -/
def kPub : List Char :=
  ("-----BEGIN PUBLIC KEY-----MDww-----END PUBLIC KEY-----").data

/-- A greeting fixture carrying a session token. -/
def helloMsg : List Char :=
  ("LWSS V 16.1.11.06 | ~API:1.6~ | Session-Token: abc123").data

/-- The raw text of the key-disclosure fixture. -/
def keyMsg : List Char := ("K").data

/-- A `loads` fixture: parses `keyMsg` to
`{"getkey_result": [{"pubkey": kPub}]}` and nothing else. -/
def loadsKey : List Char → Option PyValue := fun s =>
  if s = keyMsg then
    some (.pydict [(gkKey, .pylist [.pydict [(pubkeyKey, .pystr kPub)]])])
  else none

/-- A greeting fixture in which the `"Session-Token:"` marker occurs twice. -/
def dblTokenMsg : List Char := ("LWSS Session-Token: xSession-Token: y").data

/-! ## Helper lemmas -/

lemma containsSub_nil_pat (s : List Char) : containsSub [] s = true := by
  induction s with
  | nil => simp [containsSub, List.isPrefixOf]
  | cons c rest ih => simp [containsSub, List.isPrefixOf]

lemma pat_ne_nil_of_notContains {pat s : List Char}
    (h : containsSub pat s = false) : pat ≠ [] := by
  intro he
  subst he
  rw [containsSub_nil_pat] at h
  simp at h

lemma isPrefixOf_append_right {pat a b : List Char}
    (h : pat.isPrefixOf a = true) : pat.isPrefixOf (a ++ b) = true := by
  induction pat generalizing a with
  | nil => simp [List.isPrefixOf]
  | cons p ps ih =>
    cases a with
    | nil => simp [List.isPrefixOf] at h
    | cons c rest =>
      simp only [List.cons_append, List.isPrefixOf, Bool.and_eq_true, beq_iff_eq] at h ⊢
      exact ⟨h.1, ih h.2⟩

lemma notContains_append_left {pat a b : List Char}
    (h : containsSub pat (a ++ b) = false) : containsSub pat a = false := by
  induction a with
  | nil =>
    have hne := pat_ne_nil_of_notContains h
    cases pat with
    | nil => simp at hne
    | cons p ps => simp [containsSub, List.isPrefixOf]
  | cons c a' ih =>
    rw [List.cons_append] at h
    simp only [containsSub, Bool.or_eq_false_iff] at h ⊢
    refine ⟨?_, ih h.2⟩
    by_contra hc
    rw [Bool.not_eq_false] at hc
    have := @isPrefixOf_append_right pat (c :: a') b hc
    rw [List.cons_append] at this
    rw [this] at h
    exact Bool.noConfusion h.1

lemma notContains_dropWhile {pat s : List Char} (q : Char → Bool)
    (h : containsSub pat s = false) : containsSub pat (List.dropWhile q s) = false := by
  induction s with
  | nil => simpa [List.dropWhile] using h
  | cons c rest ih =>
    simp only [containsSub, Bool.or_eq_false_iff] at h
    rw [List.dropWhile_cons]
    by_cases hq : q c = true
    · simp only [hq, if_true]
      exact ih h.2
    · simp only [Bool.not_eq_true] at hq
      simp only [hq, Bool.false_eq_true, if_false]
      simp [containsSub, h.1, h.2]

lemma notContains_pyStrip {pat s : List Char}
    (h : containsSub pat s = false) : containsSub pat (pyStrip s) = false := by
  unfold pyStrip
  have ht := notContains_dropWhile isPySpace h
  obtain ⟨b, hb⟩ := List.rdropWhile_prefix isPySpace (List.dropWhile isPySpace s)
  rw [← hb] at ht
  exact notContains_append_left ht

lemma listReplaceAux_of_notContains {pat rep : List Char} :
    ∀ (n : Nat) (s : List Char), containsSub pat s = false →
      listReplaceAux n s pat rep = s := by
  intro n
  induction n with
  | zero => intro s _; rfl
  | succ n ih =>
    intro s h
    cases s with
    | nil => rfl
    | cons c rest =>
      simp only [containsSub, Bool.or_eq_false_iff] at h
      simp only [listReplaceAux, h.1, Bool.false_eq_true, if_false]
      rw [ih rest h.2]

lemma listReplace_of_notContains {pat rep s : List Char}
    (h : containsSub pat s = false) : listReplace s pat rep = s :=
  listReplaceAux_of_notContains _ _ h

lemma pyStrip_idem (s : List Char) : pyStrip (pyStrip s) = pyStrip s := by
  unfold pyStrip
  have hdw : List.dropWhile isPySpace (List.dropWhile isPySpace s)
      = List.dropWhile isPySpace s := List.dropWhile_idempotent isPySpace s
  have hhead := (List.dropWhile_eq_self_iff).mp hdw
  have h1 : List.dropWhile isPySpace
      (List.rdropWhile isPySpace (List.dropWhile isPySpace s))
      = List.rdropWhile isPySpace (List.dropWhile isPySpace s) := by
    cases hr : List.rdropWhile isPySpace (List.dropWhile isPySpace s) with
    | nil => simp [List.dropWhile]
    | cons c u =>
      obtain ⟨b, hb⟩ := List.rdropWhile_prefix isPySpace (List.dropWhile isPySpace s)
      rw [hr] at hb
      have hb' : List.dropWhile isPySpace s = c :: (u ++ b) := by
        rw [← hb]; rfl
      have hlen : 0 < (List.dropWhile isPySpace s).length := by
        rw [hb']; simp
      have hc := hhead hlen
      rw [List.get_eq_getElem] at hc
      simp only [hb', List.getElem_cons_zero] at hc
      rw [List.dropWhile_cons]
      simp [hc]
  rw [h1, List.rdropWhile_idempotent]

lemma normalize_eq_pyStrip_of_marker_free {s : List Char}
    (h1 : containsSub pemHeader s = false) (h2 : containsSub pemFooter s = false) :
    normalize_public_key s = pyStrip s := by
  unfold normalize_public_key
  rw [listReplace_of_notContains h1, listReplace_of_notContains h2]

/-! ## Claim C4 -/

/-- C4 counterexample: the claim asserts `normalize_public_key` is
idempotent on every input, and in particular a no-op on a key whose line
breaks are already correctly placed.  On the single-line key
`"-----BEGIN PUBLIC KEY-----AA-----END PUBLIC KEY-----"` a second
application inserts an extra blank line after the header and before the
footer (each `replace` fires again on the marker), so applying the
normaliser twice differs from applying it once. -/
theorem c4_normalize_idem_cex :
    normalize_public_key (normalize_public_key
      (("-----BEGIN PUBLIC KEY-----AA-----END PUBLIC KEY-----").data)) ≠
    normalize_public_key (("-----BEGIN PUBLIC KEY-----AA-----END PUBLIC KEY-----").data) := by
  decide

/-- C4 amended: `normalize_public_key` is not idempotent — re-normalizing
a key that carries both markers around interior content inserts an extra
blank line after the header and before the footer (the counterexample
above), so normalizing an already-normalized key is not a no-op.
Idempotence does hold on every input in which neither marker occurs,
where the function reduces to whitespace stripping. -/
theorem c4_normalize_idem_amended (s : List Char)
    (h1 : containsSub pemHeader s = false) (h2 : containsSub pemFooter s = false) :
    normalize_public_key (normalize_public_key s) = normalize_public_key s := by
  rw [normalize_eq_pyStrip_of_marker_free h1 h2,
      normalize_eq_pyStrip_of_marker_free (notContains_pyStrip h1) (notContains_pyStrip h2),
      pyStrip_idem]

/-- C4 witness: the amended theorem applied to the marker-free string
`"MIIBIjANBg"`. -/
theorem c4_normalize_idem_witness :
    containsSub pemHeader (("MIIBIjANBg").data) = false ∧
    containsSub pemFooter (("MIIBIjANBg").data) = false ∧
    normalize_public_key (normalize_public_key (("MIIBIjANBg").data)) =
      normalize_public_key (("MIIBIjANBg").data) :=
  ⟨by decide, by decide,
    c4_normalize_idem_amended (("MIIBIjANBg").data) (by decide) (by decide)⟩

/-! ## Length and ASCII lemmas for the generated key material -/

lemma hexDigits_getD_ascii (n : Nat) : (hexDigits.getD n 'x').toNat < 128 := by
  by_cases h : n < 16
  · interval_cases n <;> decide
  · rw [List.getD_eq_default]
    · decide
    · simp only [Nat.not_lt] at h
      simpa [hexDigits] using h

lemma bytesHex_length (bs : List Nat) : (bytesHex bs).length = 2 * bs.length := by
  induction bs with
  | nil => rfl
  | cons b rest ih =>
    simp only [bytesHex, List.cons_bind] at ih ⊢
    simp [List.length_append, hexOfByte, ih]
    ring

lemma bytesHex_ascii (bs : List Nat) : ∀ c ∈ bytesHex bs, c.toNat < 128 := by
  induction bs with
  | nil => intro c hc; simp [bytesHex] at hc
  | cons b rest ih =>
    intro c hc
    simp only [bytesHex, List.cons_bind, List.mem_append] at hc
    rcases hc with hc | hc
    · simp only [hexOfByte, List.mem_cons, List.mem_singleton] at hc
      rcases hc with rfl | hc
      · exact hexDigits_getD_ascii _
      · rcases hc with rfl | hc
        · exact hexDigits_getD_ascii _
        · simp at hc
    · exact ih c hc

lemma utf8EncodeChar_ascii {c : Char} (h : c.toNat < 128) :
    utf8EncodeChar c = [c.toNat] := by
  simp [utf8EncodeChar, h]

lemma utf8Encode_length_of_ascii {l : List Char} (h : ∀ c ∈ l, c.toNat < 128) :
    (utf8Encode l).length = l.length := by
  induction l with
  | nil => rfl
  | cons c rest ih =>
    simp only [utf8Encode, List.cons_bind, List.length_append, List.length_cons]
    rw [utf8EncodeChar_ascii (h c (List.mem_cons_self c rest))]
    have := ih (fun x hx => h x (List.mem_cons_of_mem c hx))
    simp only [utf8Encode] at this
    simp [this]
    omega

lemma utf8Encode_mem_of_ascii {l : List Char} (h : ∀ c ∈ l, c.toNat < 128) :
    ∀ b ∈ utf8Encode l, b < 128 := by
  induction l with
  | nil => intro b hb; simp [utf8Encode] at hb
  | cons c rest ih =>
    intro b hb
    simp only [utf8Encode, List.cons_bind, List.mem_append] at hb
    rcases hb with hb | hb
    · rw [utf8EncodeChar_ascii (h c (List.mem_cons_self c rest))] at hb
      simp only [List.mem_singleton] at hb
      subst hb
      exact h c (List.mem_cons_self c rest)
    · exact ih (fun x hx => h x (List.mem_cons_of_mem c hx)) b hb

lemma aes_key_bytes_length {seed1 : List Nat} (h : seed1.length = 16) :
    (aes_key_bytes seed1).length = 32 := by
  unfold aes_key_bytes
  rw [utf8Encode_length_of_ascii (bytesHex_ascii seed1), bytesHex_length, h]

/-! ## Claim C1 -/

/-- C1 counterexample: the claim says the RSA plaintext's first segment is
the 32-character hex rendering of the 16 raw random bytes (the symmetric
key read as text).  The source computes `aes_key_bytes.hex()` where
`aes_key_bytes` is already the ASCII hex string, so the first segment is
the 64-character hex-of-hex.  With both seeds all-zero and an empty
session token the two differ (98 bytes versus 66 bytes of plaintext). -/
theorem c1_rsa_plaintext_cex :
    rsa_payload (List.replicate 16 0) (List.replicate 16 0) [] ≠
      rsa_payload_claimed (List.replicate 16 0) (List.replicate 16 0) [] := by
  decide

/-- C1 amended: for 16-byte seeds, the plaintext handed to RSA encryption
is the UTF-8 string `"<hex-of-key-bytes>:<hex-iv>:<sessionToken>"` whose
first segment is the lowercase hex rendering of the 32 ASCII bytes of the
symmetric key — 64 hex characters, the hex-of-hex of the 16 raw random
bytes — and whose second segment is the 32-character hex rendering of the
16 raw IV bytes, followed by the session token. -/
theorem c1_rsa_plaintext_amended (seed1 seed2 : List Nat) (session_token : List Char)
    (h1 : seed1.length = 16) (h2 : seed2.length = 16) :
    rsa_payload seed1 seed2 session_token =
      utf8Encode (bytesHex (aes_key_bytes seed1) ++
        ':' :: (bytesHex (iv_bytes seed2) ++ ':' :: session_token)) ∧
    (bytesHex (aes_key_bytes seed1)).length = 64 ∧
    (bytesHex (iv_bytes seed2)).length = 32 := by
  refine ⟨rfl, ?_, ?_⟩
  · rw [bytesHex_length, aes_key_bytes_length h1]
  · rw [bytesHex_length]
    unfold iv_bytes
    rw [h2]

/-- C1 witness: the amended theorem at the all-zero seeds and empty token. -/
theorem c1_rsa_plaintext_amended_witness :
    (List.replicate 16 (0 : Nat)).length = 16 ∧
    (rsa_payload (List.replicate 16 0) (List.replicate 16 0) [] =
      utf8Encode (bytesHex (aes_key_bytes (List.replicate 16 0)) ++
        ':' :: (bytesHex (iv_bytes (List.replicate 16 0)) ++ ':' :: [])) ∧
    (bytesHex (aes_key_bytes (List.replicate 16 0))).length = 64 ∧
    (bytesHex (iv_bytes (List.replicate 16 0))).length = 32) :=
  ⟨by decide, c1_rsa_plaintext_amended _ _ [] (by decide) (by decide)⟩

/-! ## Claim C5 -/

/-- C5: for any 16-byte seeds, the symmetric key handed to the AES
primitive in `get_auth_payload` (that argument is `aes_key_bytes seed1`)
is exactly 32 bytes, all ASCII (`< 128`), and the IV handed to it
(`iv_bytes seed2`) is exactly the 16 raw bytes of the second seed:
`len(symmetric_key) == 32` and `len(iv) == 16`. -/
theorem c5_key_iv_lengths (seed1 seed2 : List Nat)
    (h1 : seed1.length = 16) (h2 : seed2.length = 16) :
    (aes_key_bytes seed1).length = 32 ∧
    (∀ b ∈ aes_key_bytes seed1, b < 128) ∧
    iv_bytes seed2 = seed2 ∧ (iv_bytes seed2).length = 16 := by
  refine ⟨aes_key_bytes_length h1, ?_, rfl, ?_⟩
  · exact utf8Encode_mem_of_ascii (bytesHex_ascii seed1)
  · unfold iv_bytes
    exact h2

/-- C5 witness: the theorem at the all-zero seeds. -/
theorem c5_key_iv_lengths_witness :
    (List.replicate 16 (0 : Nat)).length = 16 ∧
    ((aes_key_bytes (List.replicate 16 0)).length = 32 ∧
      (∀ b ∈ aes_key_bytes (List.replicate 16 0), b < 128) ∧
      iv_bytes (List.replicate 16 0) = List.replicate 16 0 ∧
      (iv_bytes (List.replicate 16 0)).length = 16) :=
  ⟨by decide, c5_key_iv_lengths _ _ (by decide) (by decide)⟩

/-! ## Percent-encoding never produces a slash (claim C6) -/

lemma hexDigitsU_getD_ne_slash (n : Nat) : hexDigitsU.getD n 'x' ≠ '/' := by
  by_cases h : n < 16
  · interval_cases n <;> decide
  · rw [List.getD_eq_default]
    · decide
    · simp only [Nat.not_lt] at h
      simpa [hexDigitsU] using h

lemma quoteChar_no_slash (c : Char) : '/' ∉ quoteChar c := by
  unfold quoteChar
  by_cases h : isUnreservedChar c = true
  · simp only [h, if_true, List.mem_singleton]
    intro he
    rw [← he] at h
    exact absurd h (by decide)
  · simp only [h, Bool.false_eq_true, if_false]
    intro hm
    rw [List.mem_bind] at hm
    obtain ⟨b, _, hmem⟩ := hm
    simp only [List.mem_cons, List.mem_singleton, List.not_mem_nil, or_false] at hmem
    rcases hmem with he | he | he
    · exact absurd he (by decide)
    · exact (hexDigitsU_getD_ne_slash _) he.symm
    · exact (hexDigitsU_getD_ne_slash _) he.symm

lemma pyQuote_no_slash (s : List Char) : '/' ∉ pyQuote s := by
  intro hm
  rw [pyQuote, List.mem_bind] at hm
  obtain ⟨c, _, hc⟩ := hm
  exact quoteChar_no_slash c hc

lemma pyQuote_count_slash (s : List Char) : (pyQuote s).count '/' = 0 :=
  List.count_eq_zero.mpr (pyQuote_no_slash s)

/-! ## Claim C6 -/

/-- C6: for every input, the authenticate command built by
`get_auth_payload` is the fixed stem `"secure/authenticate/"` followed by
exactly three `/`-delimited segments — the percent-encoded `active_user`,
the percent-encoded base64 RSA output, and the percent-encoded base64 AES
output — none of which contains a literal `/`; in total the command
contains exactly the four `/` of the stem and the two separators. -/
theorem c6_command_segments (prims : CryptoPrims) (seed1 seed2 : List Nat)
    (public_key session_token token active_user : List Char) :
    ∃ q1 q2 q3,
      get_auth_payload prims seed1 seed2 public_key session_token token active_user =
        secureAuthStem ++ q1 ++ '/' :: (q2 ++ '/' :: q3) ∧
      '/' ∉ q1 ∧ '/' ∉ q2 ∧ '/' ∉ q3 ∧
      (get_auth_payload prims seed1 seed2 public_key session_token token
        active_user).count '/' = 4 := by
  refine ⟨_, _, _, rfl, pyQuote_no_slash _, pyQuote_no_slash _, pyQuote_no_slash _, ?_⟩
  show (secureAuthStem ++ pyQuote active_user ++ '/' :: (_ ++ '/' :: _)).count '/' = 4
  simp only [List.count_append, List.count_cons_self, pyQuote_count_slash]
  decide

/-! ## Split and run helper lemmas -/

lemma upToFirst_eq_self_of_notContains {pat s : List Char}
    (h : containsSub pat s = false) : upToFirst pat s = s := by
  induction s with
  | nil => rfl
  | cons c rest ih =>
    simp only [containsSub, Bool.or_eq_false_iff] at h
    simp only [upToFirst, h.1, Bool.false_eq_true, if_false]
    rw [ih h.2]

lemma afterFirst_length_lt {pat s : List Char}
    (hc : containsSub pat s = true) (hp : pat ≠ []) :
    (afterFirst pat s).length < s.length := by
  induction s with
  | nil =>
    exfalso
    cases pat with
    | nil => exact hp rfl
    | cons p ps => simp [containsSub, List.isPrefixOf] at hc
  | cons c rest ih =>
    by_cases hpre : pat.isPrefixOf (c :: rest) = true
    · simp only [afterFirst, hpre, if_true]
      rw [List.length_drop]
      have h1 : 1 ≤ pat.length := by
        cases pat with
        | nil => exact absurd rfl hp
        | cons _ _ => simp
      simp only [List.length_cons]
      omega
    · simp only [containsSub, Bool.or_eq_true] at hc
      rcases hc with hc | hc
      · exact absurd hc hpre
      · rw [Bool.not_eq_true] at hpre
        simp only [afterFirst, hpre, Bool.false_eq_true, if_false, List.length_cons]
        exact Nat.lt_trans (ih hc) (Nat.lt_succ_self _)

lemma pySplitAux_getD_head (m : Nat) {pat : List Char} (A : List Char) (hp : pat ≠ []) :
    (pySplitAux (m + 1) pat A).getD 0 [] = upToFirst pat A := by
  by_cases hc : containsSub pat A = true
  · simp [pySplitAux, hp, hc]
  · rw [Bool.not_eq_true] at hc
    simp [pySplitAux, hc, upToFirst_eq_self_of_notContains hc]

lemma pySplit_getD_one {pat s : List Char} (hp : pat ≠ [])
    (hc : containsSub pat s = true) :
    (pySplit pat s).getD 1 [] = upToFirst pat (afterFirst pat s) := by
  have hlt := afterFirst_length_lt hc hp
  obtain ⟨m, hm⟩ : ∃ m, s.length = m + 1 := ⟨s.length - 1, by omega⟩
  unfold pySplit
  rw [hm]
  simp only [pySplitAux, hp, hc, ne_eq, not_false_iff, true_and, if_true,
    List.getD_cons_succ]
  by_cases hc2 : containsSub pat (afterFirst pat s) = true
  · simp [hc2]
  · rw [Bool.not_eq_true] at hc2
    simp [hc2, upToFirst_eq_self_of_notContains hc2]

lemma authRun_cons (loads : List Char → Option PyValue) (prims : CryptoPrims)
    (rng : Nat → List Nat × List Nat) (token active_user : List Char)
    (st : LoopState) (m : List Char) (rest : List (List Char)) :
    authRun loads prims rng token active_user st (m :: rest) =
      match authStep loads prims rng token active_user st m with
      | (st', none) => authRun loads prims rng token active_user st' rest
      | (st', some o) => (o, st') := rfl

/-! ## Claim C9 -/

/-- C9: a message that does not start with `"LWSS"` and parses as JSON
whose top-level value is not a dict is silently skipped: no outcome is
produced, nothing is sent, the captured session token (indeed the whole
loop state) is unchanged, and the run continues with the remaining
messages. -/
theorem c9_non_dict_json_skip (loads : List Char → Option PyValue) (prims : CryptoPrims)
    (rng : Nat → List Nat × List Nat) (token active_user : List Char)
    (st : LoopState) (m : List Char) (rest : List (List Char)) (v : PyValue)
    (hp : lwssMarker.isPrefixOf m = false)
    (hl : loads m = some v) (hd : isDictV v = false) :
    authRun loads prims rng token active_user st (m :: rest) =
      authRun loads prims rng token active_user st rest := by
  have hstep : authStep loads prims rng token active_user st m = (st, none) := by
    unfold authStep
    rw [hp]
    simp only [Bool.false_eq_true, if_false]
    rw [hl]
    cases v with
    | pydict d => simp [isDictV] at hd
    | pystr s => rfl
    | pyint n => rfl
    | pybool b => rfl
    | pynull => rfl
    | pylist xs => rfl
  rw [authRun_cons, hstep]

/-- C9 witness: a JSON number `3` arriving in the initial state is
skipped. -/
theorem c9_non_dict_json_skip_witness :
    lwssMarker.isPrefixOf (("3").data) = false ∧
    isDictV (PyValue.pyint 3) = false ∧
    authRun (fun _ => some (.pyint 3)) ⟨fun _ _ => [], fun _ _ _ => []⟩
        (fun _ => ([], [])) [] [] initialState [("3").data] =
      authRun (fun _ => some (.pyint 3)) ⟨fun _ _ => [], fun _ _ _ => []⟩
        (fun _ => ([], [])) [] [] initialState [] :=
  ⟨by decide, by decide,
    c9_non_dict_json_skip _ _ _ _ _ _ _ _ _ (by decide) rfl (by decide)⟩

/-! ## Claim C10 -/

/-- C10 counterexample: the claim says an `"LWSS"` greeting carrying the
marker overwrites the token with the whitespace-stripped text *following
the first occurrence* of `"Session-Token:"`.  On a greeting in which the
marker occurs twice, `split("Session-Token:")[1]` is only the segment up
to the second occurrence: the code stores `"x"`, while the text following
the first occurrence strips to `"xSession-Token: y"`. -/
theorem c10_lwss_handling_cex :
    (authenticate_with_audio_server (fun _ => none) trivPrims trivRng
        [dblTokenMsg] [] []).2.session_token = some ['x'] ∧
    pyStrip (afterFirst sessionTokenMarker dblTokenMsg) =
      ("xSession-Token: y").data ∧
    (['x'] : List Char) ≠ ("xSession-Token: y").data := by
  refine ⟨by decide, by decide, by decide⟩

/-- C10 amended: every inbound message starting with `"LWSS"` — at any
point in the exchange, from any loop state — causes the key-request
command `"audio/cfg/getkey/full"` to be sent again, and, when the message
contains the `"Session-Token:"` marker, overwrites the captured session
token with the whitespace-stripped segment strictly between the first
occurrence of the marker and its next occurrence (or the end of the
message); without the marker the token is left unchanged. -/
theorem c10_lwss_handling_amended (loads : List Char → Option PyValue)
    (prims : CryptoPrims) (rng : Nat → List Nat × List Nat)
    (token active_user : List Char) (st : LoopState) (m : List Char)
    (rest : List (List Char)) (hp : lwssMarker.isPrefixOf m = true) :
    authRun loads prims rng token active_user st (m :: rest) =
      authRun loads prims rng token active_user
        ⟨if containsSub sessionTokenMarker m then
            some (pyStrip (upToFirst sessionTokenMarker
              (afterFirst sessionTokenMarker m)))
          else st.session_token,
          st.sent ++ [getkeyCmd], st.encCalls⟩ rest := by
  rw [authRun_cons]
  have hstep : authStep loads prims rng token active_user st m =
      (⟨if containsSub sessionTokenMarker m then
          some (pyStrip (upToFirst sessionTokenMarker
            (afterFirst sessionTokenMarker m)))
        else st.session_token,
        st.sent ++ [getkeyCmd], st.encCalls⟩, none) := by
    unfold authStep
    rw [hp]
    by_cases hc : containsSub sessionTokenMarker m = true
    · rw [pySplit_getD_one (by decide) hc]
      cases st
      simp [hc]
    · rw [Bool.not_eq_true] at hc
      cases st
      simp [hc]
  rw [hstep]

/-- C10 witness: the amended theorem on a single-marker greeting from the
initial state. -/
theorem c10_lwss_handling_witness :
    lwssMarker.isPrefixOf (("LWSS Session-Token: q").data) = true ∧
    authRun (fun _ => none) trivPrims trivRng [] [] initialState
        [("LWSS Session-Token: q").data] =
      authRun (fun _ => none) trivPrims trivRng [] []
        ⟨if containsSub sessionTokenMarker (("LWSS Session-Token: q").data) then
            some (pyStrip (upToFirst sessionTokenMarker
              (afterFirst sessionTokenMarker (("LWSS Session-Token: q").data))))
          else initialState.session_token,
          initialState.sent ++ [getkeyCmd], initialState.encCalls⟩ [] :=
  ⟨by decide,
    c10_lwss_handling_amended _ _ _ _ _ _ _ _ (by decide)⟩

/-! ## Claim C2 -/

/-- C2 counterexample: the claim allows only success or a typed failure.
On an empty message stream (the underlying connection closing normally
ends the `async for` iterator) the function falls off the loop and
implicitly returns `None`: the run finishes as `Outcome.ended`, which is
neither `Outcome.success` nor any `Outcome.failure`. -/
theorem c2_outcome_cex :
    authenticate_with_audio_server (fun _ => none) trivPrims trivRng [] [] [] =
      (Outcome.ended, initialState) := by
  decide

/-- C2 amended: the operation has exactly three classes of outcomes —
success (`return True`); a raised exception (the single untyped
`Exception` carrying a message, or an uncaught `json`/runtime error from
a library call); or an implicit `None` return when the message stream
ends before authentication completes.  In particular the empty stream
returns `None` with the loop state untouched. -/
theorem c2_outcomes_amended (loads : List Char → Option PyValue)
    (prims : CryptoPrims) (rng : Nat → List Nat × List Nat)
    (msgs : List (List Char)) (token active_user : List Char) :
    ((authenticate_with_audio_server loads prims rng msgs token active_user).1 =
        Outcome.success ∨
      (∃ emsg, (authenticate_with_audio_server loads prims rng msgs token
        active_user).1 = Outcome.failure emsg) ∨
      (authenticate_with_audio_server loads prims rng msgs token active_user).1 =
        Outcome.jsonError ∨
      (authenticate_with_audio_server loads prims rng msgs token active_user).1 =
        Outcome.runtimeError ∨
      (authenticate_with_audio_server loads prims rng msgs token active_user).1 =
        Outcome.ended) ∧
    authenticate_with_audio_server loads prims rng [] token active_user =
      (Outcome.ended, initialState) := by
  constructor
  · cases h : (authenticate_with_audio_server loads prims rng msgs token active_user).1 with
    | success => exact Or.inl rfl
    | failure emsg => exact Or.inr (Or.inl ⟨emsg, rfl⟩)
    | jsonError => exact Or.inr (Or.inr (Or.inl rfl))
    | runtimeError => exact Or.inr (Or.inr (Or.inr (Or.inl rfl)))
    | ended => exact Or.inr (Or.inr (Or.inr (Or.inr rfl)))
  · rfl

/-! ## Claim C7 -/

lemma authStep_dict_auth (loads : List Char → Option PyValue) (prims : CryptoPrims)
    (rng : Nat → List Nat × List Nat) (token active_user : List Char)
    (st : LoopState) (m : List Char) (d : List (List Char × PyValue))
    (hp : lwssMarker.isPrefixOf m = false)
    (hl : loads m = some (.pydict d))
    (hgk : optTruthy (dictGet d gkKey) = false) :
    authStep loads prims rng token active_user st m =
      (st, some (match dictGet d authKey with
        | some ar =>
          if pyTruthy ar then
            if pyEqStrLit ar successStr then Outcome.success
            else Outcome.failure (audioServerErr ++ pyStr ar)
          else Outcome.failure (audioServerErr ++ unknownErr)
        | none => Outcome.failure (audioServerErr ++ unknownErr))) := by
  unfold authStep
  rw [hp]
  simp only [Bool.false_eq_true, if_false]
  rw [hl]
  simp only [hgk, Bool.false_eq_true, if_false]
  cases hak : dictGet d authKey with
  | none => rfl
  | some ar =>
    by_cases ht : pyTruthy ar = true
    · by_cases he : pyEqStrLit ar successStr = true
      · simp [ht, he]
      · rw [Bool.not_eq_true] at he
        simp [ht, he]
    · rw [Bool.not_eq_true] at ht
      simp [ht]

/-- C7: on a structured (non-greeting) reply without a truthy
`getkey_result`, the run dispatches on `authenticate_result`: the literal
`"authentication successful"` yields overall success; any other truthy
value fails with the message `"Audio server error: "` followed by the
server-supplied result text (so the text is embedded verbatim); a falsy
or absent value fails with `"Audio server error: unknown error"`. -/
theorem c7_auth_result_dispatch (loads : List Char → Option PyValue)
    (prims : CryptoPrims) (rng : Nat → List Nat × List Nat)
    (token active_user : List Char) (st : LoopState) (m : List Char)
    (rest : List (List Char)) (d : List (List Char × PyValue))
    (hp : lwssMarker.isPrefixOf m = false)
    (hl : loads m = some (.pydict d))
    (hgk : optTruthy (dictGet d gkKey) = false) :
    (dictGet d authKey = some (.pystr successStr) →
      authRun loads prims rng token active_user st (m :: rest) =
        (Outcome.success, st)) ∧
    (∀ ar, dictGet d authKey = some ar → pyTruthy ar = true →
      pyEqStrLit ar successStr = false →
      authRun loads prims rng token active_user st (m :: rest) =
        (Outcome.failure (audioServerErr ++ pyStr ar), st)) ∧
    (∀ ar, dictGet d authKey = some ar → pyTruthy ar = false →
      authRun loads prims rng token active_user st (m :: rest) =
        (Outcome.failure (audioServerErr ++ unknownErr), st)) ∧
    (dictGet d authKey = none →
      authRun loads prims rng token active_user st (m :: rest) =
        (Outcome.failure (audioServerErr ++ unknownErr), st)) := by
  refine ⟨?_, ?_, ?_, ?_⟩
  · intro hak
    rw [authRun_cons, authStep_dict_auth loads prims rng token active_user st m d hp hl hgk,
      hak]
    have h1 : pyTruthy (PyValue.pystr successStr) = true := by decide
    have h2 : pyEqStrLit (PyValue.pystr successStr) successStr = true := by decide
    simp [h1, h2]
  · intro ar hak ht he
    rw [authRun_cons, authStep_dict_auth loads prims rng token active_user st m d hp hl hgk,
      hak]
    simp [ht, he]
  · intro ar hak ht
    rw [authRun_cons, authStep_dict_auth loads prims rng token active_user st m d hp hl hgk,
      hak]
    simp [ht]
  · intro hak
    rw [authRun_cons, authStep_dict_auth loads prims rng token active_user st m d hp hl hgk,
      hak]

/-- C7 witness: the theorem on the concrete replies
`{"authenticate_result": "authentication successful"}` (success) applied
through its first conjunct. -/
theorem c7_auth_result_dispatch_witness :
    lwssMarker.isPrefixOf (("A").data) = false ∧
    dictGet [(authKey, PyValue.pystr successStr)] authKey =
      some (PyValue.pystr successStr) ∧
    authRun (fun _ => some (.pydict [(authKey, .pystr successStr)])) trivPrims trivRng
        [] [] initialState [("A").data] = (Outcome.success, initialState) :=
  ⟨by decide, rfl,
    (c7_auth_result_dispatch (fun _ => some (.pydict [(authKey, .pystr successStr)]))
      trivPrims trivRng [] [] initialState (("A").data) []
      [(authKey, .pystr successStr)] (by decide) rfl (by decide)).1 rfl⟩

/-! ## Claim C8 -/

lemma authStep_token_none_inv (loads : List Char → Option PyValue)
    (prims : CryptoPrims) (rng : Nat → List Nat × List Nat)
    (token active_user : List Char) (st : LoopState) (m : List Char)
    (hst : st.session_token = none)
    (hm : ¬(lwssMarker.isPrefixOf m = true ∧
      containsSub sessionTokenMarker m = true)) :
    (authStep loads prims rng token active_user st m).1.session_token = none ∧
    (authStep loads prims rng token active_user st m).1.encCalls = st.encCalls := by
  unfold authStep
  by_cases hp : lwssMarker.isPrefixOf m = true
  · have hmk : containsSub sessionTokenMarker m = false := by
      rcases Bool.eq_false_or_eq_true (containsSub sessionTokenMarker m) with h | h
      · exact absurd ⟨hp, h⟩ hm
      · exact h
    simp [hp, hmk, hst]
  · rw [Bool.not_eq_true] at hp
    simp only [hp, Bool.false_eq_true, if_false]
    cases hl : loads m with
    | none => exact ⟨hst, rfl⟩
    | some v =>
      cases v with
      | pystr s => exact ⟨hst, rfl⟩
      | pyint n => exact ⟨hst, rfl⟩
      | pybool b => exact ⟨hst, rfl⟩
      | pynull => exact ⟨hst, rfl⟩
      | pylist xs => exact ⟨hst, rfl⟩
      | pydict d =>
        by_cases hgk : optTruthy (dictGet d gkKey) = true
        · simp [hgk, hst]
        · rw [Bool.not_eq_true] at hgk
          simp only [hgk, Bool.false_eq_true, if_false]
          cases dictGet d authKey with
          | none => exact ⟨hst, rfl⟩
          | some ar =>
            by_cases ht : pyTruthy ar = true
            · by_cases he : pyEqStrLit ar successStr = true
              · simp [ht, he, hst]
              · rw [Bool.not_eq_true] at he
                simp [ht, he, hst]
            · rw [Bool.not_eq_true] at ht
              simp [ht, hst]

/-- C8: when a key-disclosure reply (a non-greeting message parsing to a
dict with a truthy `getkey_result`) arrives while no session token was
ever captured, the run fails immediately with the message
`"No session token captured; cannot authenticate."`, the loop state is
completely unchanged (so nothing further is sent), and the remaining
messages are never processed; moreover, along any sequence of messages
none of which is a token-bearing greeting, the encryptor invocation count
never changes, so the encryptor is never invoked in such an attempt. -/
theorem c8_no_session_token (loads : List Char → Option PyValue)
    (prims : CryptoPrims) (rng : Nat → List Nat × List Nat)
    (token active_user : List Char) :
    (∀ (st : LoopState) (m : List Char) (rest : List (List Char))
        (d : List (List Char × PyValue)),
      st.session_token = none →
      lwssMarker.isPrefixOf m = false →
      loads m = some (.pydict d) →
      optTruthy (dictGet d gkKey) = true →
      authRun loads prims rng token active_user st (m :: rest) =
        (Outcome.failure noSessionMsg, st)) ∧
    (∀ (st : LoopState) (msgs : List (List Char)),
      st.session_token = none →
      (∀ m ∈ msgs, ¬(lwssMarker.isPrefixOf m = true ∧
        containsSub sessionTokenMarker m = true)) →
      ((authRun loads prims rng token active_user st msgs).2).encCalls =
        st.encCalls) := by
  constructor
  · intro st m rest d hst hp hl hgk
    rw [authRun_cons]
    have hstep : authStep loads prims rng token active_user st m =
        (st, some (Outcome.failure noSessionMsg)) := by
      unfold authStep
      rw [hp]
      simp only [Bool.false_eq_true, if_false]
      rw [hl]
      simp only [hgk, if_true]
      rw [hst]
    rw [hstep]
  · intro st msgs
    induction msgs generalizing st with
    | nil => intro _ _; rfl
    | cons m rest ih =>
      intro hst hms
      rw [authRun_cons]
      obtain ⟨h1, h2⟩ := authStep_token_none_inv loads prims rng token active_user st m
        hst (hms m (List.mem_cons_self m rest))
      rcases hstep : authStep loads prims rng token active_user st m with ⟨st', o⟩
      rw [hstep] at h1 h2
      cases o with
      | none =>
        have := ih st' h1 (fun x hx => hms x (List.mem_cons_of_mem m hx))
        simpa [this] using h2
      | some o => exact h2

/-- C8 witness: the first conjunct on the key-disclosure fixture from the
initial state, and the second conjunct on that same single-message run. -/
theorem c8_no_session_token_witness :
    initialState.session_token = none ∧
    authRun loadsKey trivPrims trivRng [] [] initialState [keyMsg] =
      (Outcome.failure noSessionMsg, initialState) ∧
    ((authRun loadsKey trivPrims trivRng [] [] initialState [keyMsg]).2).encCalls =
      initialState.encCalls :=
  ⟨rfl,
    (c8_no_session_token loadsKey trivPrims trivRng [] []).1 initialState keyMsg []
      [(gkKey, .pylist [.pydict [(pubkeyKey, .pystr kPub)]])] rfl (by decide) rfl
      (by decide),
    (c8_no_session_token loadsKey trivPrims trivRng [] []).2 initialState [keyMsg] rfl
      (by decide)⟩

/-! ## Claim C3 -/

/-- C3 counterexample: after a greeting and a first key-disclosure reply
(the authenticate command has been sent, so the spec's machine would be in
`AwaitingResult`), a second key-disclosure reply does not fail: the run
processes it again — the encryptor has been invoked twice — and finishes
without any `Outcome.failure` when the stream ends. -/
theorem c3_key_reply_after_auth_cex :
    (authenticate_with_audio_server loadsKey trivPrims trivRng
        [helloMsg, keyMsg, keyMsg] [] ['u']).1 = Outcome.ended ∧
    (authenticate_with_audio_server loadsKey trivPrims trivRng
        [helloMsg, keyMsg, keyMsg] [] ['u']).2.encCalls = 2 := by
  refine ⟨by decide, by decide⟩

/-- C3 amended: a key-disclosure reply received at any point with a
non-empty session token already captured — including after the
authenticate command has been sent — is handled exactly like the first
one: the encryptor is invoked again (with the next fresh draws) and
another authenticate command is sent; no error is raised and the run
continues with the remaining messages. -/
theorem c3_key_reply_after_auth_amended (loads : List Char → Option PyValue)
    (prims : CryptoPrims) (rng : Nat → List Nat × List Nat)
    (token active_user : List Char) (st : LoopState) (m : List Char)
    (rest : List (List Char)) (tok : List Char)
    (d fd : List (List Char × PyValue)) (l : List PyValue) (pk : List Char)
    (hst : st.session_token = some tok) (htok : tok.isEmpty = false)
    (hp : lwssMarker.isPrefixOf m = false)
    (hl : loads m = some (.pydict d))
    (hgk : dictGet d gkKey = some (.pylist (.pydict fd :: l)))
    (hpk : dictGet fd pubkeyKey = some (.pystr pk)) :
    authRun loads prims rng token active_user st (m :: rest) =
      authRun loads prims rng token active_user
        ⟨st.session_token,
          st.sent ++ [get_auth_payload prims (rng st.encCalls).1 (rng st.encCalls).2
            pk tok token active_user],
          st.encCalls + 1⟩ rest := by
  rw [authRun_cons]
  have htr : optTruthy (dictGet d gkKey) = true := by
    rw [hgk]
    rfl
  have hstep : authStep loads prims rng token active_user st m =
      (⟨st.session_token,
        st.sent ++ [get_auth_payload prims (rng st.encCalls).1 (rng st.encCalls).2
          pk tok token active_user],
        st.encCalls + 1⟩, none) := by
    unfold authStep
    rw [hp]
    simp only [Bool.false_eq_true, if_false]
    rw [hl]
    simp only [htr, if_true]
    rw [hst]
    simp only [htok, Bool.false_eq_true, if_false]
    simp only [hgk, hpk]
  rw [hstep]

/-- C3 witness: the amended theorem on the key-disclosure fixture, from a
state that already captured the token `"a"`. -/
theorem c3_key_reply_after_auth_witness :
    (⟨some ['a'], [], 0⟩ : LoopState).session_token = some ['a'] ∧
    (['a'] : List Char).isEmpty = false ∧
    authRun loadsKey trivPrims trivRng [] [] ⟨some ['a'], [], 0⟩ [keyMsg] =
      authRun loadsKey trivPrims trivRng [] []
        ⟨(⟨some ['a'], [], 0⟩ : LoopState).session_token,
          (⟨some ['a'], [], 0⟩ : LoopState).sent ++
            [get_auth_payload trivPrims
              (trivRng (⟨some ['a'], [], 0⟩ : LoopState).encCalls).1
              (trivRng (⟨some ['a'], [], 0⟩ : LoopState).encCalls).2 kPub ['a'] [] []],
          (⟨some ['a'], [], 0⟩ : LoopState).encCalls + 1⟩ [] :=
  ⟨rfl, rfl,
    c3_key_reply_after_auth_amended loadsKey trivPrims trivRng [] []
      ⟨some ['a'], [], 0⟩ keyMsg [] ['a']
      [(gkKey, .pylist [.pydict [(pubkeyKey, .pystr kPub)]])]
      [(pubkeyKey, .pystr kPub)] [] kPub rfl rfl (by decide) rfl rfl rfl⟩
